import Mathlib

/-!
Verification of the config-resolution pipeline of `utils/config.py`
(hierarchical configuration loader).

The Python values flowing through the pipeline (nested dicts, lists,
tuples, scalars) are embedded as the inductive type `Value`; Python
dicts are insertion-ordered association lists over string keys.  Each
pipeline stage (`Config._substitute_base_vars`, `Config._merge_a_into_b`,
`Config._pre_substitute_base_vars`, the duplicate-base-key loop of
`Config._file2dict`, `Config.__init__`, `ConfigDict` access) is
translated into an executable Lean function that follows the Python
control flow line by line, including its short-circuit evaluation and
the exceptions each operation can raise.
-/

set_option maxRecDepth 4000

namespace ConfigSpec

/-- A Python value as used by the config pipeline: scalars, lists,
tuples and string-keyed dicts (insertion-ordered association lists). -/
inductive Value where
  | none
  | bool (b : Bool)
  | int (n : Int)
  | str (s : String)
  | list (xs : List Value)
  | tuple (xs : List Value)
  | dict (xs : List (String × Value))

instance : Inhabited Value := ⟨Value.none⟩

/-- Association-list fields of a Python dict. -/
abbrev Fields := List (String × Value)

/-- `d[k]` lookup on a dict's fields: first binding wins (keys are
unique in a Python dict, so this is the binding). -/
def dlookup : Fields → String → Option Value
  | [], _ => Option.none
  | (k', v) :: rest, k => if k' = k then some v else dlookup rest k

/-- `k in d` membership test on a dict's fields. -/
def dmem (xs : Fields) (k : String) : Bool :=
  (dlookup xs k).isSome

/-- `d[k] = v` on a dict's fields: update in place if present
(keeping insertion order), append otherwise — Python dict semantics. -/
def dset : Fields → String → Value → Fields
  | [], k, v => [(k, v)]
  | (k', v') :: rest, k, v =>
      if k' = k then (k, v) :: rest else (k', v') :: dset rest k v

/-- `d.pop(k, default)`'s removal effect: drop the binding for `k`. -/
def dpop : Fields → String → Fields
  | [], _ => []
  | (k', v') :: rest, k =>
      if k' = k then rest else (k', v') :: dpop rest k

/-- Python truthiness (`bool(x)`) for the embedded values. -/
def truthy : Value → Bool
  | .none => false
  | .bool b => b
  | .int n => n ≠ 0
  | .str s => s != ""
  | .list xs => !xs.isEmpty
  | .tuple xs => !xs.isEmpty
  | .dict xs => !xs.isEmpty

/-- The reserved keys of the loader (`config.py` lines 69-72). -/
def BASE_KEY : String := "_base_"

def DELETE_KEY : String := "_delete_"

def RESERVED_KEYS : List String := ["filename", "text", "pretty_text"]

/-- Helper for `path.split('.')`: accumulate the current segment
(in reverse) while scanning the characters. -/
def splitDotsAux : List Char → List Char → List String
  | [], acc => [String.mk acc.reverse]
  | c :: rest, acc =>
      if c = '.' then String.mk acc.reverse :: splitDotsAux rest []
      else splitDotsAux rest (c :: acc)

/-- Python `s.split('.')` (always at least one segment, as in Python). -/
def splitDots (s : String) : List String := splitDotsAux s.data []

/-- `path.split('.')` plus `new_v = new_v[new_k]` chain: resolve a
dotted path against the combined base mapping, failing (Python
`KeyError`/`TypeError`) when a segment is missing or the current value
is not a dict. -/
def resolveDotted (base : Value) : List String → Option Value
  | [] => some base
  | seg :: rest =>
      match base with
      | .dict xs =>
          match dlookup xs seg with
          | some v => resolveDotted v rest
          | Option.none => Option.none
      | _ => Option.none

/-- Key lookup in the placeholder map (`base_var_dict`), a Python dict
from opaque token to dotted path. -/
def plookup : List (String × String) → String → Option String
  | [], _ => Option.none
  | (k', v) :: rest, k => if k' = k then some v else plookup rest k

mutual
/-- `Config._substitute_base_vars(cfg, base_var_dict, base_cfg)`
(config.py lines 231-260): deep traversal replacing every string that
is a recorded token by the value of its dotted path in `base_cfg`.
Returns `Option.none` exactly when Python would raise (a dotted-path
segment fails to resolve). -/
def substituteBaseVars (cfg : Value) (bvd : List (String × String))
    (baseCfg : Value) : Option Value :=
  match cfg with
  | .dict xs =>
      match substFields xs bvd baseCfg with
      | some ys => some (.dict ys)
      | Option.none => Option.none
  | .tuple xs =>
      match substList xs bvd baseCfg with
      | some ys => some (.tuple ys)
      | Option.none => Option.none
  | .list xs =>
      match substList xs bvd baseCfg with
      | some ys => some (.list ys)
      | Option.none => Option.none
  | .str s =>
      match plookup bvd s with
      | some path => resolveDotted baseCfg (splitDots path)
      | Option.none => some (.str s)
  | v => some v
termination_by structural cfg

/-- The `for k, v in cfg.items()` loop of `_substitute_base_vars` when
`cfg` is a dict: strings that are tokens are resolved, containers are
recursed into, other values are left as they are. -/
def substFields (xs : Fields) (bvd : List (String × String))
    (baseCfg : Value) : Option Fields :=
  match xs with
  | [] => some []
  | (k, v) :: rest =>
      let newV : Option Value :=
        match v with
        | .str s =>
            match plookup bvd s with
            | some path => resolveDotted baseCfg (splitDots path)
            | Option.none => some (.str s)
        | .list _ | .tuple _ | .dict _ => substituteBaseVars v bvd baseCfg
        | _ => some v
      match newV with
      | some v' =>
          match substFields rest bvd baseCfg with
          | some rest' => some ((k, v') :: rest')
          | Option.none => Option.none
      | Option.none => Option.none
termination_by structural xs

/-- The list/tuple comprehension branches of `_substitute_base_vars`. -/
def substList (xs : List Value) (bvd : List (String × String))
    (baseCfg : Value) : Option (List Value) :=
  match xs with
  | [] => some []
  | v :: rest =>
      match substituteBaseVars v bvd baseCfg with
      | some v' =>
          match substList rest bvd baseCfg with
          | some rest' => some (v' :: rest')
          | Option.none => Option.none
      | Option.none => Option.none
termination_by structural xs
end


/-! ## Deep merge: `Config._merge_a_into_b` (config.py lines 262-312) -/

/-- The exceptions `_merge_a_into_b` can raise, one constructor per
`raise` site / failing Python primitive:
* `indexKeyError n` — the explicit `raise KeyError(f'Index {k} must be ge len(b).')`;
* `listIndexError` — Python `IndexError` from reading `b[k]` at `k = len(b)`
  (the guard only rejects `len(b) < k`);
* `missingKey k` — Python `KeyError` from `b[k]` on a dict without `k`;
* `typeMismatch k` — the explicit `raise TypeError(...)` for an
  incompatible inherited key;
* `subscriptTypeError k` — Python `TypeError` from `b[k]`/`b[k] = v`
  with a string key on a non-dict;
* `itemsAttributeError` — Python `AttributeError` from `a.items()`
  when the merged-in value is not a dict;
* `copyAttributeError` — Python `AttributeError` from `b.copy()`
  when the destination is neither dict nor list. -/
inductive MergeErr where
  | indexKeyError (n : Nat)
  | listIndexError
  | missingKey (k : String)
  | typeMismatch (k : String)
  | subscriptTypeError (k : String)
  | itemsAttributeError
  | copyAttributeError
deriving DecidableEq, Repr

/-- Python `str.isdigit()`: nonempty and all characters are digits. -/
def isDigitStr (s : String) : Bool := s != "" && s.data.all Char.isDigit

/-- Python `int(k)` for a digit string. -/
def strToNat (s : String) : Nat :=
  s.data.foldl (fun acc c => acc * 10 + (c.toNat - 48)) 0

/-- `b[k]` with a string key: dict lookup (KeyError when absent),
`TypeError` on anything else. -/
def pyGetItem (b : Value) (k : String) : Except MergeErr Value :=
  match b with
  | .dict xs =>
      match dlookup xs k with
      | some v => .ok v
      | Option.none => .error (.missingKey k)
  | _ => .error (.subscriptTypeError k)

/-- `b[k] = v` with a string key: dict update, `TypeError` otherwise. -/
def pySetItem (b : Value) (k : String) (v : Value) : Except MergeErr Value :=
  match b with
  | .dict xs => .ok (.dict (dset xs k v))
  | _ => .error (.subscriptTypeError k)

/-- `isinstance(b[k], allowed_types)` where
`allowed_types = (dict, list) if allow_list_keys else dict`. -/
def isAllowedType (v : Value) (allow : Bool) : Bool :=
  match v with
  | .dict _ => true
  | .list _ => allow
  | _ => false

/-- Values supporting `.copy()` (dict and list — `_merge_a_into_b`
calls `b.copy()` on entry). -/
def hasCopy : Value → Bool
  | .dict _ => true
  | .list _ => true
  | _ => false

/-- `b` is a Python list (`isinstance(b, list)`). -/
def isList : Value → Bool
  | .list _ => true
  | _ => false

mutual
/-- One iteration of the `for k, v in a.items()` loop of
`Config._merge_a_into_b`: given the current (already partially
updated) copy `b`, process the pair `(k, v)`.  The short-circuit of
`if k and b and not v.pop(DELETE_KEY, False)` is reproduced exactly:
the delete flag is popped from `v` only when `k` and `b` are both
truthy.  Recursive calls re-enter the Python function through
`b.copy()` (`copyAttributeError` if unsupported) and `a.items()`
(`itemsAttributeError` when the merged-in value is not a dict). -/
def mergeStep (k : String) (v b : Value) (allow : Bool) :
    Except MergeErr Value :=
  if allow && isDigitStr k && isList b then
    match b with
    | .list xs =>
        let n := strToNat k
        if xs.length < n then .error (.indexKeyError n)
        else
          match xs.get? n with
          | some bn =>
              if hasCopy bn then
                match v with
                | .dict vxs =>
                    match mergeFields vxs bn allow with
                    | .ok m => .ok (.list (xs.set n m))
                    | .error e => .error e
                | _ => .error .itemsAttributeError
              else .error .copyAttributeError
          | Option.none => .error .listIndexError
    | _ => .error .listIndexError
  else
    match v with
    | .dict vxs =>
        if k != "" && truthy b then
          let deleteVal := (dlookup vxs DELETE_KEY).getD (.bool false)
          if truthy deleteVal then pySetItem b k (.dict (dpop vxs DELETE_KEY))
          else
            match pyGetItem b k with
            | .error e => .error e
            | .ok bk =>
                if isAllowedType bk allow then
                  match mergeFields (dpop vxs DELETE_KEY) bk allow with
                  | .ok m => pySetItem b k m
                  | .error e => .error e
                else .error (.typeMismatch k)
        else pySetItem b k (.dict vxs)
    | _ => pySetItem b k v
termination_by sizeOf v
decreasing_by
  all_goals simp_wf
  all_goals first
    | omega
    | (have h : sizeOf (dpop xs DELETE_KEY) ≤ sizeOf xs := by
         clear * -
         induction xs with
         | nil => simp [dpop]
         | cons hd tl ih =>
             obtain ⟨k1, v1⟩ := hd
             simp only [dpop]
             split
             · simp only [List.cons.sizeOf_spec]
               omega
             · simp only [List.cons.sizeOf_spec]
               omega
       omega)

/-- The `for k, v in a.items()` loop of `Config._merge_a_into_b`,
threading the mutated copy of `b` through the iterations. -/
def mergeFields (axs : Fields) (b : Value) (allow : Bool) :
    Except MergeErr Value :=
  match axs with
  | [] => .ok b
  | (k, v) :: rest =>
      match mergeStep k v b allow with
      | .ok b' => mergeFields rest b' allow
      | .error e => .error e
termination_by sizeOf axs
decreasing_by
  all_goals simp_wf
  all_goals omega
end

/-- `Config._merge_a_into_b(a, b, allow_list_keys)`: `b.copy()`
followed by the `a.items()` loop. -/
def mergeAIntoB (a b : Value) (allow : Bool) : Except MergeErr Value :=
  if hasCopy b then
    match a with
    | .dict axs => mergeFields axs b allow
    | _ => .error .itemsAttributeError
  else .error .copyAttributeError

/-- The two failures of the numeric-string list-key branch, both
signalling an out-of-range index: the explicit `raise KeyError('Index
{k} must be ge len(b).')` guard and the Python `IndexError` from
reading `b[k]` at `k == len(b)`. -/
def MergeErr.isIndexSignal : MergeErr → Bool
  | .indexKeyError _ => true
  | .listIndexError => true
  | _ => false

/-- Python exception kinds raised by the loader, with their message. -/
inductive PyErr where
  | typeError (msg : String)
  | keyError (msg : String)
  | attributeError (msg : String)
  | indexError (msg : String)
deriving DecidableEq, Repr

/-- Python `x in None` (the literal membership test on line 460,
`if cfg_dict in None:`): `None` is not a container and not iterable,
so the test raises `TypeError` for every left operand. -/
def pyInNone (_ : Value) : Except PyErr Bool :=
  .error (.typeError "argument of type 'NoneType' is not iterable")

/-- `ConfigDict.__getitem__`: plain dict lookup whose `__missing__`
override raises `KeyError(key)` (config.py lines 96-97). -/
def configDictGetItem (xs : Fields) (k : String) : Except PyErr Value :=
  match dlookup xs k with
  | some v => .ok v
  | Option.none => .error (.keyError k)

/-- `ConfigDict.__getattr__` (config.py lines 99-109): attribute access
goes through the base class to `self[item]`; a `KeyError` is converted
to `AttributeError("'ConfigDict' has no attribute '<item>'")`, any
other exception is re-raised unchanged. -/
def configDictGetAttr (xs : Fields) (k : String) : Except PyErr Value :=
  match configDictGetItem xs k with
  | .ok v => .ok v
  | .error (.keyError _) =>
      .error (.attributeError
        ("'ConfigDict' has no attribute '" ++ k ++ "'"))
  | .error e => .error e

/-- The `Config` object: its `ConfigDict` payload, source path and
concatenated source text (config.py lines 472-483). -/
structure Config where
  cfg : Fields
  filename : Option String
  text : String

/-- `Config.__getattr__` (line 591-592): delegate to the ConfigDict. -/
def configGetAttr (c : Config) (k : String) : Except PyErr Value :=
  configDictGetAttr c.cfg k

/-- `Config.__getitem__` (line 594-595): delegate to the ConfigDict. -/
def configGetItem (c : Config) (k : String) : Except PyErr Value :=
  configDictGetItem c.cfg k

/-- `Config.__init__(cfg_dict, cfg_text, filename)` (config.py lines
459-483).  The first statement is the membership test
`if cfg_dict in None:`; then the `isinstance` check, the reserved-key
loop, and the field assignments.  `fileText` stands for the contents
that `open(filename).read()` would return in the
`elif filename:` fallback (file I/O is outside the model). -/
def Config.init (cfgDict : Value) (cfgText : Option String)
    (filename : Option String) (fileText : String) : Except PyErr Config :=
  match pyInNone cfgDict with
  | .error e => .error e
  | .ok isNone =>
      let checked : Except PyErr Fields :=
        if isNone then .ok []
        else
          match cfgDict with
          | .dict xs => .ok xs
          | _ => .error (.typeError "cfg_dict must be a dict")
      match checked with
      | .error e => .error e
      | .ok xs =>
          match xs.find? (fun kv => RESERVED_KEYS.contains kv.1) with
          | some kv =>
              .error (.keyError (kv.1 ++ " is reserved for config file"))
          | Option.none =>
              let text :=
                match cfgText with
                | some t =>
                    if t ≠ "" then t
                    else match filename with
                         | some _ => fileText
                         | Option.none => ""
                | Option.none =>
                    match filename with
                    | some _ => fileText
                    | Option.none => ""
              .ok { cfg := xs, filename := filename, text := text }

/-- `e.isOk` for the loader's `Except` results. -/
def exceptOk {α : Type} (e : Except PyErr α) : Bool :=
  match e with
  | .ok _ => true
  | .error _ => false

/-- `Config.fromfile(filename)` (config.py lines 419-429), given the
result of `Config._file2dict` (file I/O and module evaluation are
outside the model, so the loaded dict and concatenated text are an
input): on success it constructs `Config(cfg_dict, cfg_text=cfg_text,
filename=filename)`.  The optional `custom_imports` module-import side
effect can only raise earlier; it never produces the Config itself. -/
def fromfile (loaded : Except PyErr (Value × String)) (filename : String) :
    Except PyErr Config :=
  match loaded with
  | .error e => .error e
  | .ok (cfgDict, cfgText) =>
      Config.init cfgDict (some cfgText) (some filename) ""

/-- `startsWithChars p s`: `p` is an initial run of `s`. -/
def startsWithChars : List Char → List Char → Bool
  | [], _ => true
  | _ :: _, [] => false
  | p :: ps, c :: cs => p = c && startsWithChars ps cs

/-- `containsChars p s`: `p` occurs contiguously inside `s`. -/
def containsChars (p : List Char) : List Char → Bool
  | [] => p.isEmpty
  | c :: cs => startsWithChars p (c :: cs) || containsChars p cs

/-- Python substring test `p in s` on strings. -/
def strContains (s p : String) : Bool := containsChars p.data s.data

/-- Python `dict.update` (`base_cfg_dict.update(c)`). -/
def dupdate (acc : Fields) : Fields → Fields
  | [] => acc
  | (k, v) :: rest => dupdate (dset acc k v) rest

/-- The duplicate-key message prefix of the `raise KeyError` on
config.py lines 404-405. -/
def DUP_MSG : String := "Duplicate key is not allowed among bases. Duplicate keys: "

/-- Python `repr` of the non-empty set of duplicate keys interpolated
into the message (`{'shared'}`). -/
def renderKeySet (ks : List String) : String :=
  "\x7b" ++ String.intercalate ", " (ks.map (fun k => "'" ++ k ++ "'")) ++ "\x7d"

/-- The base-concatenation loop of `Config._file2dict` (config.py
lines 400-406): fold the recursively loaded base mappings into one,
failing with `KeyError` when the accumulated mapping and the next base
share any top-level key.  The message interpolates only
`duplicate_keys`; the file names (first components, in scope in the
source as `base_filename`) are not used. -/
def concatBaseDicts (acc : Fields) :
    List (String × Fields) → Except PyErr Fields
  | [] => .ok acc
  | (_, c) :: rest =>
      let dups := (acc.map Prod.fst).filter (fun k => dmem c k)
      if dups.isEmpty then concatBaseDicts (dupdate acc c) rest
      else .error (.keyError (DUP_MSG ++ renderKeySet dups))

/-- Lines 383-417 of `Config._file2dict`, after the document loader
produced `cfgDict` and the provenance text `cfgText` (file path plus
raw source) was built: the base branch triggers on the substring test
`BASE_KEY in cfg_text`; inside it `cfg_dict.pop(BASE_KEY)` has no
default, so a missing key raises `KeyError`; the recursively loaded
base files are `loadedBases` (file I/O is outside the model), checked
for duplicates; the remaining stages (variable back-substitution,
merge, text concatenation) are the continuation `after`, which never
runs when an earlier stage raises. -/
def fileBaseResolution (cfgText : String) (cfgDict : Fields)
    (loadedBases : List (String × Fields))
    (after : Fields → Fields → Except PyErr (Value × String)) :
    Except PyErr (Value × String) :=
  if strContains cfgText BASE_KEY then
    match dlookup cfgDict BASE_KEY with
    | Option.none => .error (.keyError BASE_KEY)
    | some _ =>
        match concatBaseDicts [] loadedBases with
        | .error e => .error e
        | .ok baseDict => after (dpop cfgDict BASE_KEY) baseDict
  else .ok (.dict cfgDict, cfgText)

/-! ## `Config._pre_substitute_base_vars` (config.py lines 166-229)

The function scans the raw text with
`re.findall(r'\{\{\s*_base_\.([\w\.]+)\s*\}\}', ...)`, collects the
distinct captured dotted paths in a `set`, and for each path builds a
token `f'_{base_var}_{uuid.uuid4().hex.lower()[:6]}'`, records
`base_var_dict[randstr] = base_var`, and substitutes
`r'\{\{\s*_base_\.' + base_var + r'\s*\}\}'` — the path is spliced
into the pattern unescaped, so each `.` inside it is a regex wildcard
matching any character except a newline.  Two sources of
nondeterminism are explicit parameters: `order` is the iteration
order of the Python `set` (unspecified by the language), and
`suffix` the uuid draw (always six lowercase hex characters).
The scanners run on explicit fuel initialised with the text length;
each step consumes at least one character, so the fuel never runs
out for that initial value. -/

/-- Regex `\w` (ASCII identifiers, as used by config paths). -/
def isWordChar (c : Char) : Bool := c.isAlphanum || c = '_'

/-- The capture class `[\w\.]`. -/
def isPathChar (c : Char) : Bool := isWordChar c || c = '.'

/-- Regex `\s`. -/
def isSpaceChar (c : Char) : Bool :=
  c = ' ' || c = '\t' || c = '\n' || c = '\r' || c = '\x0b' || c = '\x0c'

/-- Consume an exact literal run of characters. -/
def matchLiteral : List Char → List Char → Option (List Char)
  | [], cs => some cs
  | _ :: _, [] => Option.none
  | l :: ls, c :: cs => if c = l then matchLiteral ls cs else Option.none

/-- Try the findall pattern `\{\{\s*_base_\.([\w\.]+)\s*\}\}` at the
start of `cs`; on success return the captured path and the characters
after the match.  The character classes `[\w\.]+` and `\s*` are
disjoint from each other and from `}`, so the greedy scan is exactly
the regex's backtracking behaviour. -/
def matchBaseVarAt (cs : List Char) : Option (String × List Char) :=
  match matchLiteral ['{', '{'] cs with
  | Option.none => Option.none
  | some cs1 =>
      match matchLiteral "_base_.".data (cs1.dropWhile isSpaceChar) with
      | Option.none => Option.none
      | some cs2 =>
          let path := cs2.takeWhile isPathChar
          let cs3 := cs2.dropWhile isPathChar
          if path.isEmpty then Option.none
          else
            match matchLiteral ['}', '}'] (cs3.dropWhile isSpaceChar) with
            | Option.none => Option.none
            | some cs4 => some (String.mk path, cs4)

/-- `re.findall`: scan left to right, non-overlapping, leftmost match
wins; collect the captured paths in order (with repetitions). -/
def findBaseVarsAux : Nat → List Char → List String
  | 0, _ => []
  | _ + 1, [] => []
  | n + 1, c :: cs =>
      match matchBaseVarAt (c :: cs) with
      | some (p, rest) => p :: findBaseVarsAux n rest
      | Option.none => findBaseVarsAux n cs

/-- All captures of the base-variable pattern in the text, in order. -/
def findBaseVars (s : String) : List String :=
  findBaseVarsAux s.data.length s.data

/-- One pattern character of the substitution regex
`\{\{\s*_base_\.<path>\s*\}\}`: a `.` inside the spliced path is the
regex wildcard (any character but a newline), every other path
character is literal. -/
def patCharMatch (pc c : Char) : Bool :=
  if pc = '.' then c ≠ '\n' else c = pc

/-- Consume the spliced path pattern (fixed length, one matcher per
character). -/
def matchPatChars : List Char → List Char → Option (List Char)
  | [], cs => some cs
  | _ :: _, [] => Option.none
  | p :: ps, c :: cs =>
      if patCharMatch p c then matchPatChars ps cs else Option.none

/-- Try `\{\{\s*_base_\.<path>\s*\}\}` (dots of `path` as wildcards)
at the start of `cs`. -/
def matchSubPatAt (path : List Char) (cs : List Char) : Option (List Char) :=
  match matchLiteral ['{', '{'] cs with
  | Option.none => Option.none
  | some cs1 =>
      match matchLiteral "_base_.".data (cs1.dropWhile isSpaceChar) with
      | Option.none => Option.none
      | some cs2 =>
          match matchPatChars path cs2 with
          | Option.none => Option.none
          | some cs3 =>
              match matchLiteral ['}', '}'] (cs3.dropWhile isSpaceChar) with
              | Option.none => Option.none
              | some cs4 => some cs4

/-- `re.sub`: replace every non-overlapping occurrence, scanning left
to right; the replacement is not rescanned. -/
def reSubAux (path repl : List Char) : Nat → List Char → List Char
  | 0, cs => cs
  | _ + 1, [] => []
  | n + 1, c :: cs =>
      match matchSubPatAt path (c :: cs) with
      | some rest => repl ++ reSubAux path repl n rest
      | Option.none => c :: reSubAux path repl n cs

/-- `re.sub(r'\{\{\s*_base_\.' + path + r'\s*\}\}', repl, s)`. -/
def reSubBaseVar (path repl s : String) : String :=
  String.mk (reSubAux path.data repl.data s.data.length s.data)

/-- The opaque token generated for a path:
`f'_{base_var}_{uuid.uuid4().hex.lower()[:6]}'`. -/
def token (suffix : String → String) (p : String) : String :=
  "_" ++ p ++ "_" ++ suffix p

/-- The loop of `Config._pre_substitute_base_vars`: for each distinct
captured path (in the set's iteration order), generate its token,
record `token → path` in `base_var_dict`, and substitute the path's
dot-as-wildcard pattern in the text by the quoted token literal.
Returns the rewritten text and the accumulated `base_var_dict`. -/
def preSubstituteBaseVars (text : String) (order : List String)
    (suffix : String → String) : String × List (String × String) :=
  order.foldl
    (fun acc p =>
      let tok := token suffix p
      (reSubBaseVar p ("\"" ++ tok ++ "\"") acc.1, acc.2 ++ [(tok, p)]))
    (text, [])

/-- Empty placeholder map: `plookup` never hits. -/
theorem plookup_nil (s : String) : plookup [] s = Option.none := rfl

mutual
theorem substituteBaseVars_nil_eq :
    ∀ (cfg b : Value), substituteBaseVars cfg [] b = some cfg
  | .none, _ => rfl
  | .bool _, _ => rfl
  | .int _, _ => rfl
  | .str _, _ => rfl
  | .list xs, b => by
      simp only [substituteBaseVars, substList_nil_eq xs b]
  | .tuple xs, b => by
      simp only [substituteBaseVars, substList_nil_eq xs b]
  | .dict xs, b => by
      simp only [substituteBaseVars, substFields_nil_eq xs b]

theorem substFields_nil_eq :
    ∀ (xs : Fields) (b : Value), substFields xs [] b = some xs
  | [], _ => rfl
  | (k, v) :: rest, b => by
      have hrest := substFields_nil_eq rest b
      cases v with
      | str s => simp only [substFields, plookup, hrest]
      | list ys => simp only [substFields, substituteBaseVars_nil_eq (.list ys) b, hrest]
      | tuple ys => simp only [substFields, substituteBaseVars_nil_eq (.tuple ys) b, hrest]
      | dict ys => simp only [substFields, substituteBaseVars_nil_eq (.dict ys) b, hrest]
      | none => simp only [substFields, hrest]
      | bool x => simp only [substFields, hrest]
      | int x => simp only [substFields, hrest]

theorem substList_nil_eq :
    ∀ (xs : List Value) (b : Value), substList xs [] b = some xs
  | [], _ => rfl
  | v :: rest, b => by
      simp only [substList, substituteBaseVars_nil_eq v b, substList_nil_eq rest b]
end

/-- Sanity check of the embedding against the repository's own test
driver `tests/test_substitute_base_vars.py` (`__main__` block): tokens
inside dict values, list elements and tuple elements are resolved
through the base mapping, non-token strings are untouched. -/
theorem substituteBaseVars_repo_example :
    substituteBaseVars
      (.dict [("model", .dict [("a", .str "place"), ("b", .str "B")]),
              ("body", .str "MSDC"),
              ("key", .list [.str "lq", .str "gt"]),
              ("scale", .tuple [.str "width", .str "height"])])
      [("place", "A"), ("lq", "B"), ("height", "H"), ("width", "W")]
      (.dict [("A", .int 1), ("B", .int 2), ("H", .int 256), ("W", .int 224)])
    = some
      (.dict [("model", .dict [("a", .int 1), ("b", .str "B")]),
              ("body", .str "MSDC"),
              ("key", .list [.int 2, .str "gt"]),
              ("scale", .tuple [.int 224, .int 256])]) := by
  rfl

/-- C9: For every ConfigMapping `M` (any nesting of mappings,
sequences, tuples and scalars) and every base mapping `B`, the
back-substitutor `Config._substitute_base_vars` applied with an empty
PlaceholderMap succeeds and returns a structure equal to `M`:
mappings, sequences and tuples are rebuilt with the same element type
and no value is changed (the embedding is pure, matching the
`copy.deepcopy` the code performs before traversing). -/
theorem substituteBaseVars_empty_roundtrip (M B : Value) :
    substituteBaseVars M [] B = some M :=
  substituteBaseVars_nil_eq M B

theorem mergeFields_nil (b : Value) (allow : Bool) :
    mergeFields [] b allow = .ok b := by
  simp [mergeFields]

theorem mergeFields_cons (k : String) (v b : Value) (rest : Fields)
    (allow : Bool) :
    mergeFields ((k, v) :: rest) b allow
      = match mergeStep k v b allow with
        | .ok b' => mergeFields rest b' allow
        | .error e => .error e := by
  rw [mergeFields]

theorem mergeFields_singleton (k : String) (v b : Value) (allow : Bool) :
    mergeFields [(k, v)] b allow = mergeStep k v b allow := by
  rw [mergeFields_cons]
  cases mergeStep k v b allow <;> simp [mergeFields]

theorem mergeAIntoB_dict (axs : Fields) (b : Value) (allow : Bool)
    (hb : hasCopy b = true) :
    mergeAIntoB (.dict axs) b allow = mergeFields axs b allow := by
  simp [mergeAIntoB, hb]

theorem dlookup_dset (xs : Fields) (k : String) (v : Value) (key : String) :
    dlookup (dset xs k v) key = if k = key then some v else dlookup xs key := by
  induction xs with
  | nil => simp [dset, dlookup]
  | cons hd tl ih =>
      obtain ⟨k', v'⟩ := hd
      by_cases hkk : k' = k
      · subst hkk
        simp only [dset, if_pos rfl, dlookup]
        by_cases hkey : k' = key <;> simp [hkey]
      · simp only [dset, if_neg hkk, dlookup]
        by_cases hkey : k' = key
        · subst hkey
          have : ¬ k = k' := fun h => hkk h.symm
          simp [this]
        · simp [hkey, ih]

theorem dmem_dset (xs : Fields) (k : String) (v : Value) (key : String) :
    dmem (dset xs k v) key = true ↔ k = key ∨ dmem xs key = true := by
  simp only [dmem, dlookup_dset]
  by_cases h : k = key <;> simp [h]

theorem dmem_cons (k : String) (v : Value) (rest : Fields) (key : String) :
    dmem ((k, v) :: rest) key = true ↔ k = key ∨ dmem rest key = true := by
  simp only [dmem, dlookup]
  by_cases h : k = key <;> simp [h]

/-- Every successful iteration of the merge loop on a dict destination
is a plain `b[k] = x` assignment: the result is the destination with
`k` bound (updated in place or appended). -/
theorem mergeStep_ok_dict (k : String) (v : Value) (bxs : Fields)
    (allow : Bool) (b' : Value)
    (h : mergeStep k v (.dict bxs) allow = .ok b') :
    ∃ x, b' = .dict (dset bxs k x) := by
  rw [mergeStep.eq_def] at h
  simp only [isList, Bool.and_false] at h
  rw [if_neg (by simp)] at h
  cases v with
  | dict vxs =>
      simp only [pySetItem] at h
      repeat' split at h
      all_goals
        first
          | (simp only [Except.ok.injEq] at h
             exact ⟨_, h.symm⟩)
          | simp at h
  | none => exact ⟨_, by simpa [pySetItem] using h.symm⟩
  | bool x => exact ⟨_, by simpa [pySetItem] using h.symm⟩
  | int x => exact ⟨_, by simpa [pySetItem] using h.symm⟩
  | str s => exact ⟨_, by simpa [pySetItem] using h.symm⟩
  | list xs => exact ⟨_, by simpa [pySetItem] using h.symm⟩
  | tuple xs => exact ⟨_, by simpa [pySetItem] using h.symm⟩

/-- A successful merge over a dict destination produces a dict whose
key set is the union of the source's and the destination's keys. -/
theorem mergeFields_ok_keys (axs : Fields) :
    ∀ (bxs : Fields) (allow : Bool) (m : Value),
      mergeFields axs (.dict bxs) allow = .ok m →
      ∃ mxs, m = .dict mxs ∧
        ∀ key, dmem mxs key = true ↔ dmem axs key = true ∨ dmem bxs key = true := by
  induction axs with
  | nil =>
      intro bxs allow m h
      rw [mergeFields_nil] at h
      exact ⟨bxs, (Except.ok.injEq _ _ ▸ h.symm :), by simp [dmem, dlookup]⟩
  | cons hd rest ih =>
      intro bxs allow m h
      obtain ⟨k, v⟩ := hd
      rw [mergeFields_cons] at h
      cases hstep : mergeStep k v (.dict bxs) allow with
      | error e => rw [hstep] at h; exact absurd h (by simp)
      | ok b' =>
          rw [hstep] at h
          obtain ⟨x, rfl⟩ := mergeStep_ok_dict k v bxs allow b' hstep
          obtain ⟨mxs, rfl, hkeys⟩ := ih (dset bxs k x) allow m h
          refine ⟨mxs, rfl, fun key => ?_⟩
          rw [hkeys key, dmem_dset, dmem_cons]
          tauto

/-- Sanity check: first docstring example of `_merge_a_into_b`
(`Config._merge_a_into_b(dict(obj=dict(a=2)), dict(obj=dict(a=1)))
== {'obj': {'a': 2}}`). -/
theorem merge_docstring_example1 :
    mergeAIntoB (.dict [("obj", .dict [("a", .int 2)])])
      (.dict [("obj", .dict [("a", .int 1)])]) false
    = .ok (.dict [("obj", .dict [("a", .int 2)])]) := by
  simp [mergeAIntoB, mergeFields, mergeStep, pyGetItem, pySetItem, isAllowedType,
    hasCopy, isList, isDigitStr, strToNat, dlookup, dset, dpop, truthy,
    DELETE_KEY]

/-- Sanity check: second docstring example, the delete flag
(`_merge_a_into_b(dict(obj=dict(_delete_=True, a=2)), dict(obj=dict(a=1)))
== {'obj': {'a': 2}}`). -/
theorem merge_docstring_example2 :
    mergeAIntoB (.dict [("obj", .dict [(DELETE_KEY, .bool true), ("a", .int 2)])])
      (.dict [("obj", .dict [("a", .int 1)])]) false
    = .ok (.dict [("obj", .dict [("a", .int 2)])]) := by
  simp [mergeAIntoB, mergeFields, mergeStep, pyGetItem, pySetItem, isAllowedType,
    hasCopy, isList, isDigitStr, strToNat, dlookup, dset, dpop, truthy,
    DELETE_KEY]

/-- Sanity check: third docstring example, the list-key merge
(`_merge_a_into_b({'0': dict(a=2)}, [dict(a=1), dict(b=2)], True)
== [{'a': 2}, {'b': 2}]`). -/
theorem merge_docstring_example3 :
    mergeAIntoB (.dict [("0", .dict [("a", .int 2)])])
      (.list [.dict [("a", .int 1)], .dict [("b", .int 2)]]) true
    = .ok (.list [.dict [("a", .int 2)], .dict [("b", .int 2)]]) := by
  simp [mergeAIntoB, mergeFields, mergeStep, pyGetItem, pySetItem, isAllowedType,
    hasCopy, isList, isDigitStr, strToNat, dlookup, dset, dpop, truthy,
    DELETE_KEY]

theorem truthy_dict_ne_nil {bxs : Fields} (h : bxs ≠ []) :
    truthy (.dict bxs) = true := by
  cases bxs with
  | nil => exact absurd rfl h
  | cons a l => simp [truthy]

/-- On a dict destination the numeric-list branch never fires: the
iteration reduces to the `elif isinstance(v, dict)` / `else` chain. -/
theorem mergeStep_dict_dest (k : String) (v : Value) (bxs : Fields)
    (allow : Bool) :
    mergeStep k v (.dict bxs) allow
      = match v with
        | .dict vxs =>
            if k != "" && truthy (.dict bxs) then
              if truthy ((dlookup vxs DELETE_KEY).getD (.bool false)) then
                pySetItem (.dict bxs) k (.dict (dpop vxs DELETE_KEY))
              else
                match pyGetItem (.dict bxs) k with
                | .error e => .error e
                | .ok bk =>
                    if isAllowedType bk allow then
                      match mergeFields (dpop vxs DELETE_KEY) bk allow with
                      | .ok m => pySetItem (.dict bxs) k m
                      | .error e => .error e
                    else .error (.typeMismatch k)
            else pySetItem (.dict bxs) k (.dict vxs)
        | _ => pySetItem (.dict bxs) k v := by
  rw [mergeStep.eq_def]
  simp only [isList, Bool.and_false]
  rw [if_neg (by simp)]

/-- C2 (amended): for a single-binding child `{k: v}` with `v` a
mapping and a dict base `b`: when `k` and `b` are both truthy and the
reserved delete flag is truthy inside `v`, the result binds `k` to `v`
verbatim minus the flag (no recursion, no error); when `k` is the
empty string or `b` is empty, the result binds `k` to `v` verbatim
with the flag retained (the `k and b` short-circuit skips the pop);
but when `k` is truthy, `b` nonempty, the flag absent or falsy and `k`
absent from `b`, the merge raises `KeyError(k)` instead of overriding
(the code tests `k and b`, not `k in b`).  The claim's concrete delete
example does hold. -/
theorem mergeAIntoB_dict_value_override (k : String) (vxs bxs : Fields)
    (allow : Bool) :
    (k ≠ "" → bxs ≠ [] →
      truthy ((dlookup vxs DELETE_KEY).getD (.bool false)) = true →
      mergeAIntoB (.dict [(k, .dict vxs)]) (.dict bxs) allow
        = .ok (.dict (dset bxs k (.dict (dpop vxs DELETE_KEY))))) ∧
    (k = "" ∨ bxs = [] →
      mergeAIntoB (.dict [(k, .dict vxs)]) (.dict bxs) allow
        = .ok (.dict (dset bxs k (.dict vxs)))) ∧
    (k ≠ "" → bxs ≠ [] →
      truthy ((dlookup vxs DELETE_KEY).getD (.bool false)) = false →
      dmem bxs k = false →
      mergeAIntoB (.dict [(k, .dict vxs)]) (.dict bxs) allow
        = .error (.missingKey k)) ∧
    mergeAIntoB (.dict [("a", .dict [(DELETE_KEY, .bool true), ("x", .int 2)])])
      (.dict [("a", .dict [("x", .int 1), ("y", .int 3)])]) false
      = .ok (.dict [("a", .dict [("x", .int 2)])]) := by
  have hbase : ∀ (w : Value),
      mergeAIntoB (.dict [(k, w)]) (.dict bxs) allow
        = mergeStep k w (.dict bxs) allow := fun w => by
    rw [mergeAIntoB_dict _ _ _ (by simp [hasCopy]), mergeFields_singleton]
  refine ⟨?_, ?_, ?_, ?_⟩
  · intro hk hb hdel
    rw [hbase, mergeStep_dict_dest]
    simp [truthy_dict_ne_nil hb, hdel, bne_iff_ne, hk, pySetItem]
  · intro hkb
    rw [hbase, mergeStep_dict_dest]
    have hcond : (k != "" && truthy (.dict bxs)) = false := by
      rcases hkb with h | h
      · subst h; simp
      · subst h; simp [truthy]
    simp only [hcond, Bool.false_eq_true, if_false, pySetItem]
  · intro hk hb hdel hmem
    have hlook : dlookup bxs k = Option.none := by
      cases hl : dlookup bxs k with
      | none => rfl
      | some w => simp [dmem, hl] at hmem
    rw [hbase, mergeStep_dict_dest]
    simp [truthy_dict_ne_nil hb, hdel, bne_iff_ne, hk, pyGetItem, hlook]
  · simp [mergeAIntoB, mergeFields, mergeStep, pyGetItem, pySetItem,
      isAllowedType, hasCopy, isList, isDigitStr, strToNat, dlookup, dset,
      dpop, truthy, DELETE_KEY]

/-- C2 counterexample: for the child `{"a": {"x": 2}}` and base
`{"b": 1}` — the key `"a"` is absent from the base, so the claim
promises the override `{"a": {"x": 2}, "b": 1}` with no error — the
code raises `KeyError('a')`: `if k and b` tests the truthiness of the
key string and of the whole base dict instead of `k in b`, and the
subsequent `b[k]` read fails. -/
theorem mergeAIntoB_absent_key_counterexample :
    dlookup [("b", Value.int 1)] "a" = Option.none ∧
    mergeAIntoB (.dict [("a", .dict [("x", .int 2)])])
      (.dict [("b", .int 1)]) false
      = .error (.missingKey "a") := by
  constructor
  · simp [dlookup]
  · simp [mergeAIntoB, mergeFields, mergeStep, pyGetItem, pySetItem,
      isAllowedType, hasCopy, isList, isDigitStr, strToNat, dlookup, dset,
      dpop, truthy, DELETE_KEY]

/-- C2 witness: conjunct 3 of the amended claim applied at the child
`{"q": {"x": 2}}` and base `{"b": 1}`. -/
theorem mergeAIntoB_dict_value_override_witness :
    mergeAIntoB (.dict [("q", .dict [("x", .int 2)])])
      (.dict [("b", .int 1)]) false
      = .error (.missingKey "q") :=
  (mergeAIntoB_dict_value_override "q" [("x", .int 2)] [("b", .int 1)]
    false).2.2.1 (by decide) (by simp) (by decide) (by decide)

/-- C3: with numeric-string list keys enabled, a sequence destination
and a digit-string key `k` of the child: if `int(k) ≥ len(b)` the
merge fails with an index-out-of-range signal (the explicit
`KeyError('Index {k} must be ge len(b).')` guard for `int(k) > len(b)`,
the `IndexError` from reading `b[int(k)]` for `int(k) = len(b)`);
if `int(k) < len(b)` the value `v` is recursively merged into
`b[int(k)]` and that element is replaced in the result. -/
theorem mergeAIntoB_list_numeric_key (k : String) (v : Value)
    (xs : List Value) (hk : isDigitStr k = true) :
    (xs.length ≤ strToNat k →
      ∃ e, mergeAIntoB (.dict [(k, v)]) (.list xs) true = .error e ∧
        MergeErr.isIndexSignal e = true) ∧
    (∀ hn : strToNat k < xs.length,
      mergeAIntoB (.dict [(k, v)]) (.list xs) true
        = match mergeAIntoB v (xs.get ⟨strToNat k, hn⟩) true with
          | .ok m => .ok (.list (xs.set (strToNat k) m))
          | .error e => .error e) := by
  have hbase : mergeAIntoB (.dict [(k, v)]) (.list xs) true
      = mergeStep k v (.list xs) true := by
    rw [mergeAIntoB_dict _ _ _ (by simp [hasCopy]), mergeFields_singleton]
  rw [mergeStep.eq_def] at hbase
  simp only [isList, hk, Bool.and_true, Bool.true_and, if_true] at hbase
  constructor
  · intro hlen
    by_cases hlt : xs.length < strToNat k
    · rw [if_pos hlt] at hbase
      exact ⟨_, hbase, rfl⟩
    · have heq : strToNat k = xs.length := le_antisymm (not_lt.mp hlt) hlen
      rw [if_neg hlt] at hbase
      rw [List.get?_eq_none.mpr (by omega)] at hbase
      exact ⟨_, hbase, rfl⟩
  · intro hn
    rw [if_neg (by omega)] at hbase
    rw [List.get?_eq_get hn] at hbase
    generalize hbn : xs.get ⟨strToNat k, hn⟩ = bn at hbase ⊢
    rw [hbase]
    cases hcopy : hasCopy bn with
    | false => simp [mergeAIntoB, hcopy]
    | true =>
        cases v with
        | dict vxs =>
            have hra : mergeAIntoB (.dict vxs) bn true
                = mergeFields vxs bn true := by
              simp [mergeAIntoB, hcopy]
            rw [hra]
            cases hmf : mergeFields vxs bn true <;> simp [hcopy, hmf]
        | none => simp [mergeAIntoB, hcopy]
        | bool b => simp [mergeAIntoB, hcopy]
        | int n => simp [mergeAIntoB, hcopy]
        | str s => simp [mergeAIntoB, hcopy]
        | list l => simp [mergeAIntoB, hcopy]
        | tuple t => simp [mergeAIntoB, hcopy]

/-- C3 witness: the out-of-range half at key `"5"` against a
two-element list, and the in-range half at key `"0"`. -/
theorem mergeAIntoB_list_numeric_key_witness :
    (∃ e, mergeAIntoB (.dict [("5", .dict [("x", .int 1)])])
        (.list [.int 1, .int 2]) true = .error e ∧
      MergeErr.isIndexSignal e = true) ∧
    mergeAIntoB (.dict [("0", .dict [("a", .int 2)])])
        (.list [.dict [("a", .int 1)], .dict [("b", .int 2)]]) true
      = match mergeAIntoB (.dict [("a", .int 2)])
            ([Value.dict [("a", .int 1)], Value.dict [("b", .int 2)]].get
              ⟨strToNat "0", by decide⟩) true with
        | .ok m => .ok (.list ([Value.dict [("a", .int 1)],
            Value.dict [("b", .int 2)]].set (strToNat "0") m))
        | .error e => .error e :=
  ⟨(mergeAIntoB_list_numeric_key "5" (.dict [("x", .int 1)])
      [.int 1, .int 2] (by decide)).1 (by decide),
   (mergeAIntoB_list_numeric_key "0" (.dict [("a", .int 2)])
      [.dict [("a", .int 1)], .dict [("b", .int 2)]] (by decide)).2
      (by decide)⟩

/-- C8: merging mapping `a` into mapping `b` (any `allow_list_keys`
mode), whenever it returns at all, returns a mapping whose keys are
exactly `b`'s keys plus `a`'s keys; and the claim's concrete override
example recursively merges the shared key:
`_merge_a_into_b({"a": {"x": 2}}, {"a": {"x": 1, "y": 3}})
== {"a": {"x": 2, "y": 3}}`. -/
theorem mergeAIntoB_keys_union :
    (∀ (axs bxs : Fields) (allow : Bool) (m : Value),
      mergeAIntoB (.dict axs) (.dict bxs) allow = .ok m →
      ∃ mxs, m = .dict mxs ∧
        ∀ key, dmem mxs key = true ↔ dmem axs key = true ∨ dmem bxs key = true) ∧
    mergeAIntoB (.dict [("a", .dict [("x", .int 2)])])
      (.dict [("a", .dict [("x", .int 1), ("y", .int 3)])]) false
      = .ok (.dict [("a", .dict [("x", .int 2), ("y", .int 3)])]) := by
  constructor
  · intro axs bxs allow m h
    rw [mergeAIntoB_dict _ _ _ (by simp [hasCopy])] at h
    exact mergeFields_ok_keys axs bxs allow m h
  · simp [mergeAIntoB, mergeFields, mergeStep, pyGetItem, pySetItem,
      isAllowedType, hasCopy, isList, isDigitStr, strToNat, dlookup, dset,
      dpop, truthy, DELETE_KEY]

/-- C8 witness: the key-set half applied at the claim's own concrete
example, its success hypothesis discharged by the example half. -/
theorem mergeAIntoB_keys_union_witness :
    ∃ mxs, Value.dict [("a", .dict [("x", .int 2), ("y", .int 3)])]
        = .dict mxs ∧
      ∀ key, dmem mxs key = true ↔
        dmem [("a", Value.dict [("x", .int 2)])] key = true ∨
        dmem [("a", Value.dict [("x", .int 1), ("y", .int 3)])] key = true :=
  mergeAIntoB_keys_union.1 [("a", .dict [("x", .int 2)])]
    [("a", .dict [("x", .int 1), ("y", .int 3)])] false
    (.dict [("a", .dict [("x", .int 2), ("y", .int 3)])])
    mergeAIntoB_keys_union.2

/-! ## `ConfigDict` access, `Config.__init__`, `Config.fromfile`,
and the base-resolution step of `Config._file2dict` -/

/-- C1: the membership test `cfg_dict in None` on the first line of
`Config.__init__` raises `TypeError` for every argument — before the
`isinstance` check, the reserved-key loop or any field assignment can
run — and consequently `Config.fromfile` never returns a constructed
`Config`, whatever `_file2dict` produced. -/
theorem config_init_always_typeError :
    (∀ (cfgDict : Value) (cfgText : Option String)
        (filename : Option String) (fileText : String),
      Config.init cfgDict cfgText filename fileText
        = .error (.typeError "argument of type 'NoneType' is not iterable")) ∧
    (∀ (loaded : Except PyErr (Value × String)) (fn : String),
      exceptOk (fromfile loaded fn) = false) := by
  refine ⟨fun _ _ _ _ => rfl, fun loaded fn => ?_⟩
  cases loaded with
  | error e => rfl
  | ok p => obtain ⟨d, t⟩ := p; rfl

/-- C4 (code evidence): with the reserved accessor name `"filename"`
at the top level of the child mapping, construction fails with the
`TypeError` from `cfg_dict in None` — not with the reserved-key
`KeyError` the spec demands — so the reserved-key collision signal is
unreachable. -/
theorem config_init_reserved_key_unreachable :
    Config.init (.dict [("filename", .int 1)]) Option.none Option.none ""
      = .error (.typeError "argument of type 'NoneType' is not iterable") ∧
    PyErr.typeError "argument of type 'NoneType' is not iterable"
      ≠ PyErr.keyError "filename is reserved for config file" ∧
    RESERVED_KEYS.contains "filename" = true :=
  ⟨rfl, by decide, by decide⟩

/-- C10: for any `ConfigDict` level (every nested mapping of a config
is itself a `ConfigDict`, so this covers every nesting depth) and any
absent name, item access fails with the `KeyError` kind while
attribute access fails with the distinct `AttributeError` kind — also
through the `Config` delegation layer — so callers can distinguish the
two failures. -/
theorem configDict_missing_access_kinds (xs : Fields) (k : String)
    (h : dmem xs k = false) :
    configDictGetItem xs k = .error (.keyError k) ∧
    configDictGetAttr xs k
      = .error (.attributeError
          ("'ConfigDict' has no attribute '" ++ k ++ "'")) ∧
    (∀ m₁ m₂ : String, PyErr.keyError m₁ ≠ PyErr.attributeError m₂) ∧
    (∀ c : Config, c.cfg = xs →
      configGetItem c k = .error (.keyError k) ∧
      configGetAttr c k
        = .error (.attributeError
            ("'ConfigDict' has no attribute '" ++ k ++ "'"))) := by
  have hlook : dlookup xs k = Option.none := by
    cases hl : dlookup xs k with
    | none => rfl
    | some w => simp [dmem, hl] at h
  refine ⟨?_, ?_, fun m₁ m₂ => by simp, fun c hc => ?_⟩
  · simp [configDictGetItem, hlook]
  · simp [configDictGetAttr, configDictGetItem, hlook]
  · constructor
    · simp [configGetItem, configDictGetItem, hc, hlook]
    · simp [configGetAttr, configDictGetAttr, configDictGetItem, hc, hlook]

/-- C10 witness: the two failure kinds at the mapping
`{"a": 1}` and the absent name `"b"`. -/
theorem configDict_missing_access_kinds_witness :
    configDictGetItem [("a", Value.int 1)] "b" = .error (.keyError "b") ∧
    configDictGetAttr [("a", Value.int 1)] "b"
      = .error (.attributeError "'ConfigDict' has no attribute 'b'") ∧
    (∀ m₁ m₂ : String, PyErr.keyError m₁ ≠ PyErr.attributeError m₂) ∧
    (∀ c : Config, c.cfg = [("a", Value.int 1)] →
      configGetItem c "b" = .error (.keyError "b") ∧
      configGetAttr c "b"
        = .error (.attributeError "'ConfigDict' has no attribute 'b'")) :=
  configDict_missing_access_kinds [("a", Value.int 1)] "b" (by decide)

/-- C7: base resolution is triggered by the substring test
`BASE_KEY in cfg_text` on the provenance text, not by key membership
in the loaded mapping: when the text mentions `_base_` anywhere (a
comment, a placeholder) while the mapping has no `_base_` key,
`cfg_dict.pop(BASE_KEY)` runs without a default and the load dies with
an uncaught `KeyError('_base_')`. -/
theorem fileBaseResolution_text_trigger (cfgText : String)
    (cfgDict : Fields) (loadedBases : List (String × Fields))
    (after : Fields → Fields → Except PyErr (Value × String))
    (ht : strContains cfgText BASE_KEY = true)
    (hd : dmem cfgDict BASE_KEY = false) :
    fileBaseResolution cfgText cfgDict loadedBases after
      = .error (.keyError BASE_KEY) := by
  have hlook : dlookup cfgDict BASE_KEY = Option.none := by
    cases hl : dlookup cfgDict BASE_KEY with
    | none => rfl
    | some w => simp [dmem, hl] at hd
  simp [fileBaseResolution, ht, hlook]

/-- C7 witness: a file whose mapping is `{"x": 1}` but whose source
text mentions `_base_` only inside a comment. -/
theorem fileBaseResolution_text_trigger_witness :
    fileBaseResolution "cfg.py\n# see the _base_ docs\nx = 1\n"
      [("x", Value.int 1)] [] (fun _ _ => .ok (.dict [], ""))
      = .error (.keyError BASE_KEY) :=
  fileBaseResolution_text_trigger _ _ _ _ (by decide) (by decide)

theorem dmem_iff_mem_keys (xs : Fields) (k : String) :
    dmem xs k = true ↔ k ∈ xs.map Prod.fst := by
  induction xs with
  | nil => simp [dmem, dlookup]
  | cons hd tl ih =>
      obtain ⟨k', v⟩ := hd
      by_cases h : k' = k
      · subst h; simp [dmem, dlookup]
      · have hskip : dmem ((k', v) :: tl) k = dmem tl k := by
          simp [dmem, dlookup, h]
        rw [hskip, ih, List.map_cons]
        constructor
        · exact fun hm => List.mem_cons_of_mem _ hm
        · intro hm
          rcases List.mem_cons.mp hm with h' | hm'
          · exact absurd h'.symm h
          · exact hm'


theorem dmem_dupdate_iff (c : Fields) :
    ∀ (acc : Fields) (key : String),
      dmem (dupdate acc c) key = true ↔
        dmem acc key = true ∨ dmem c key = true := by
  induction c with
  | nil => intro acc key; simp [dupdate, dmem, dlookup]
  | cons hd rest ih =>
      intro acc key
      obtain ⟨k, v⟩ := hd
      rw [dupdate, ih, dmem_dset, dmem_cons]
      tauto

/-- The base-concatenation loop fails with the duplicate-key
`KeyError` whenever the accumulator shares a key with a pending base,
or two pending bases share a key. -/
theorem concatBaseDicts_dup_error :
    ∀ (bases : List (String × Fields)) (acc : Fields),
      ((∃ key c2, c2 ∈ bases.map Prod.snd ∧
          dmem acc key = true ∧ dmem c2 key = true) ∨
       (∃ key c1 c2, List.Sublist [c1, c2] (bases.map Prod.snd) ∧
          dmem c1 key = true ∧ dmem c2 key = true)) →
      ∃ dups, dups ≠ [] ∧
        concatBaseDicts acc bases
          = .error (.keyError (DUP_MSG ++ renderKeySet dups)) := by
  intro bases
  induction bases with
  | nil =>
      intro acc h
      rcases h with ⟨key, c2, hmem, _, _⟩ | ⟨key, c1, c2, hsub, _, _⟩
      · simp at hmem
      · simp at hsub
  | cons hd rest ih =>
      intro acc h
      obtain ⟨f, c⟩ := hd
      by_cases hdup : ((acc.map Prod.fst).filter (fun k => dmem c k)).isEmpty = true
      · have hnil : (acc.map Prod.fst).filter (fun k => dmem c k) = [] := by
          simpa [List.isEmpty_iff] using hdup
        have hdisj : ∀ key, dmem acc key = true → dmem c key = true → False := by
          intro key hacc hc
          have hk : key ∈ acc.map Prod.fst := (dmem_iff_mem_keys acc key).mp hacc
          have := List.filter_eq_nil_iff.mp hnil key hk
          simp [hc] at this
        have hstep : concatBaseDicts acc ((f, c) :: rest)
            = concatBaseDicts (dupdate acc c) rest := by
          simp [concatBaseDicts, hdup]
        rw [hstep]
        apply ih
        rcases h with ⟨key, c2, hmem, hacc, hc2⟩ | ⟨key, c1, c2, hsub, h1, h2⟩
        · simp only [List.map_cons, List.mem_cons] at hmem
          rcases hmem with rfl | hmem
          · exact (hdisj key hacc hc2).elim
          · exact Or.inl ⟨key, c2, hmem,
              (dmem_dupdate_iff c acc key).mpr (Or.inl hacc), hc2⟩
        · simp only [List.map_cons] at hsub
          rcases List.sublist_cons_iff.mp hsub with hsub' | ⟨r, hr, hrsub⟩
          · exact Or.inr ⟨key, c1, c2, hsub', h1, h2⟩
          · injection hr with hc1 hrest
            rw [hc1] at h1
            rw [← hrest] at hrsub
            have hc2mem : c2 ∈ rest.map Prod.snd :=
              List.singleton_sublist.mp hrsub
            exact Or.inl ⟨key, c2, hc2mem,
              (dmem_dupdate_iff c acc key).mpr (Or.inr h1), h2⟩
      · refine ⟨(acc.map Prod.fst).filter (fun k => dmem c k), ?_, ?_⟩
        · intro hnil; rw [hnil] at hdup; exact hdup rfl
        · simp [concatBaseDicts, hdup]

/-- C6 (amended): when two of the resolved base mappings share a
top-level key, the base-concatenation check fails with the
duplicate-base-key `KeyError` whose message is the fixed prefix
followed by the rendered set of conflicting keys — the offending file
is not part of the signal — and no `Config` is ever returned from the
load. -/
theorem fileBaseResolution_duplicate_base_key
    (cfgText : String) (cfgDict : Fields)
    (bases : List (String × Fields))
    (after : Fields → Fields → Except PyErr (Value × String))
    (key : String) (c1 c2 : Fields)
    (ht : strContains cfgText BASE_KEY = true)
    (hb : dmem cfgDict BASE_KEY = true)
    (hsub : List.Sublist [c1, c2] (bases.map Prod.snd))
    (h1 : dmem c1 key = true) (h2 : dmem c2 key = true) :
    ∃ dups, dups ≠ [] ∧
      fileBaseResolution cfgText cfgDict bases after
        = .error (.keyError (DUP_MSG ++ renderKeySet dups)) ∧
      ∀ fn, exceptOk (fromfile
        (fileBaseResolution cfgText cfgDict bases after) fn) = false := by
  obtain ⟨dups, hne, herr⟩ :=
    concatBaseDicts_dup_error bases [] (Or.inr ⟨key, c1, c2, hsub, h1, h2⟩)
  obtain ⟨w, hw⟩ : ∃ w, dlookup cfgDict BASE_KEY = some w := by
    cases hl : dlookup cfgDict BASE_KEY with
    | none => simp [dmem, hl] at hb
    | some w => exact ⟨w, rfl⟩
  have hres : fileBaseResolution cfgText cfgDict bases after
      = .error (.keyError (DUP_MSG ++ renderKeySet dups)) := by
    simp [fileBaseResolution, ht, hw, herr]
  exact ⟨dups, hne, hres, fun fn => by simp [hres, fromfile, exceptOk]⟩

/-- C6 counterexample: two base files `b1.py`, `b2.py` both defining
the top-level key `"shared"`.  The loop fails naming the conflicting
key, but the raised message contains neither file name — the claim's
"naming the offending file" does not hold. -/
theorem concatBaseDicts_dup_no_filename_counterexample :
    concatBaseDicts []
        [("b1.py", [("shared", Value.int 1)]),
         ("b2.py", [("shared", Value.int 2)])]
      = .error (.keyError
          "Duplicate key is not allowed among bases. Duplicate keys: \x7b'shared'\x7d") ∧
    strContains
        "Duplicate key is not allowed among bases. Duplicate keys: \x7b'shared'\x7d"
        "shared" = true ∧
    strContains
        "Duplicate key is not allowed among bases. Duplicate keys: \x7b'shared'\x7d"
        "b1.py" = false ∧
    strContains
        "Duplicate key is not allowed among bases. Duplicate keys: \x7b'shared'\x7d"
        "b2.py" = false := by
  refine ⟨?_, by decide, by decide, by decide⟩
  rfl

/-- C6 witness: the amended claim applied to a child referencing
`b1.py` and `b2.py`, both defining `"shared"`. -/
theorem fileBaseResolution_duplicate_base_key_witness :
    ∃ dups, dups ≠ [] ∧
      fileBaseResolution "cfg.py\n_base_ = ['b1.py', 'b2.py']\nx = 1\n"
          [("_base_", Value.list [.str "b1.py", .str "b2.py"])]
          [("b1.py", [("shared", Value.int 1)]),
           ("b2.py", [("shared", Value.int 2)])]
          (fun _ _ => .ok (.dict [], ""))
        = .error (.keyError (DUP_MSG ++ renderKeySet dups)) ∧
      ∀ fn, exceptOk (fromfile
        (fileBaseResolution "cfg.py\n_base_ = ['b1.py', 'b2.py']\nx = 1\n"
          [("_base_", Value.list [.str "b1.py", .str "b2.py"])]
          [("b1.py", [("shared", Value.int 1)]),
           ("b2.py", [("shared", Value.int 2)])]
          (fun _ _ => .ok (.dict [], ""))) fn) = false :=
  fileBaseResolution_duplicate_base_key _ _ _ _ "shared"
    [("shared", Value.int 1)] [("shared", Value.int 2)]
    (by decide) (by decide) (by simp) (by decide) (by decide)

theorem string_eq_of_data {a b : String} (h : a.data = b.data) : a = b := by
  cases a; cases b; exact congrArg String.mk h

/-- With six-character uuid suffixes the token builder is injective:
`"_" ++ p₁ ++ "_" ++ s₁ = "_" ++ p₂ ++ "_" ++ s₂` with `|s₁| = |s₂| = 6`
forces `|p₁| = |p₂|` and hence `p₁ = p₂` — distinct dotted paths can
never collide on their tokens, whatever the random draws are. -/
theorem token_injective (suffix : String → String)
    (hlen : ∀ p, (suffix p).length = 6) :
    Function.Injective (token suffix) := by
  intro p1 p2 heq
  have hdata : '_' :: (p1.data ++ '_' :: (suffix p1).data)
      = '_' :: (p2.data ++ '_' :: (suffix p2).data) := by
    have h := congrArg String.data heq
    simpa [token, String.data_append] using h
  have htail : p1.data ++ '_' :: (suffix p1).data
      = p2.data ++ '_' :: (suffix p2).data := by
    exact (List.cons.injEq _ _ _ _ ▸ hdata :).2
  have hs1 : (suffix p1).data.length = 6 := hlen p1
  have hs2 : (suffix p2).data.length = 6 := hlen p2
  have hlens : p1.data.length = p2.data.length := by
    have h := congrArg List.length htail
    simp only [List.length_append, List.length_cons, hs1, hs2] at h
    omega
  have := List.append_inj htail hlens
  exact string_eq_of_data this.1

/-- The `base_var_dict` built by the loop records exactly one
`token → path` pair per processed path, in processing order. -/
theorem preSubstituteBaseVars_snd (text : String) (order : List String)
    (suffix : String → String) :
    (preSubstituteBaseVars text order suffix).2
      = order.map (fun p => (token suffix p, p)) := by
  suffices h : ∀ (order : List String) (t : String) (m : List (String × String)),
      (order.foldl
        (fun acc p =>
          (reSubBaseVar p ("\"" ++ token suffix p ++ "\"") acc.1,
           acc.2 ++ [(token suffix p, p)])) (t, m)).2
        = m ++ order.map (fun p => (token suffix p, p)) by
    simpa [preSubstituteBaseVars] using h order text []
  intro order
  induction order with
  | nil => intro t m; simp
  | cons p rest ih =>
      intro t m
      rw [List.foldl_cons, ih]
      simp

/-- The rewritten text is the fold of the per-path dot-as-wildcard
substitutions over the processing order. -/
theorem preSubstituteBaseVars_fst (text : String) (order : List String)
    (suffix : String → String) :
    (preSubstituteBaseVars text order suffix).1
      = order.foldl
          (fun t p => reSubBaseVar p ("\"" ++ token suffix p ++ "\"") t)
          text := by
  suffices h : ∀ (order : List String) (t : String) (m : List (String × String)),
      (order.foldl
        (fun acc p =>
          (reSubBaseVar p ("\"" ++ token suffix p ++ "\"") acc.1,
           acc.2 ++ [(token suffix p, p)])) (t, m)).1
        = order.foldl
            (fun t p => reSubBaseVar p ("\"" ++ token suffix p ++ "\"") t) t by
    simpa [preSubstituteBaseVars] using h order text []
  intro order
  induction order with
  | nil => intro t m; simp
  | cons p rest ih =>
      intro t m
      rw [List.foldl_cons, ih, List.foldl_cons]

/-- C5 (amended): for every input text, with `order` the iteration
order of the `set` of captured dotted paths and `suffix` the
six-character uuid draw, the extractor assigns each distinct path one
token — the same token for repeated references, distinct tokens for
distinct paths, so the returned PlaceholderMap is collision-free —
and records exactly the token-to-path pairs in processing order; the
text itself is rewritten by substituting each path's pattern (its
dots acting as regex wildcards) in processing order, which need not
replace only that path's own placeholder. -/
theorem preSubstituteBaseVars_tokens (text : String) (order : List String)
    (suffix : String → String)
    (hlen : ∀ p, (suffix p).length = 6)
    (hnodup : order.Nodup)
    (_hset : ∀ p, p ∈ order ↔ p ∈ findBaseVars text) :
    (preSubstituteBaseVars text order suffix).2
        = order.map (fun p => (token suffix p, p)) ∧
    (∀ p1 p2, p1 ≠ p2 → token suffix p1 ≠ token suffix p2) ∧
    ((preSubstituteBaseVars text order suffix).2.map Prod.fst).Nodup ∧
    (preSubstituteBaseVars text order suffix).1
        = order.foldl
            (fun t p => reSubBaseVar p ("\"" ++ token suffix p ++ "\"") t)
            text := by
  refine ⟨preSubstituteBaseVars_snd text order suffix,
    fun p1 p2 hne heq => hne (token_injective suffix hlen heq),
    ?_, preSubstituteBaseVars_fst text order suffix⟩
  rw [preSubstituteBaseVars_snd text order suffix, List.map_map]
  exact hnodup.map (fun p1 p2 h => token_injective suffix hlen h)

/-- C5 counterexample: the text references the two distinct paths
`a.b` and `axb`.  When the set iteration processes `a.b` first, its
substitution pattern `\{\{\s*_base_\.a.b\s*\}\}` — the dot is an
unescaped wildcard — also consumes the placeholder of `axb`, so both
occurrences end up holding `a.b`'s token: `axb`'s placeholder is not
replaced with `axb`'s token (that token never appears in the text),
and `a.b`'s substitution touched a placeholder that was not its own,
refuting "replaces all occurrences of that path's placeholder — and
only that path's placeholder".  The PlaceholderMap still records the
pair for `axb`. -/
theorem preSubstituteBaseVars_wildcard_counterexample :
    findBaseVars "{{_base_.a.b}} {{_base_.axb}}" = ["a.b", "axb"] ∧
    List.Nodup ["a.b", "axb"] ∧
    (preSubstituteBaseVars "{{_base_.a.b}} {{_base_.axb}}" ["a.b", "axb"]
        (fun _ => "000000")).1
      = "\"_a.b_000000\" \"_a.b_000000\"" ∧
    (preSubstituteBaseVars "{{_base_.a.b}} {{_base_.axb}}" ["a.b", "axb"]
        (fun _ => "000000")).2
      = [("_a.b_000000", "a.b"), ("_axb_000000", "axb")] ∧
    token (fun _ => "000000") "axb" = "_axb_000000" ∧
    strContains "\"_a.b_000000\" \"_a.b_000000\"" "_axb_000000" = false := by
  refine ⟨rfl, by decide, rfl, rfl, rfl, by decide⟩

/-- C5 witness: the amended claim at a text referencing `alpha`
twice and `beta.c` once, with a constant six-character draw. -/
theorem preSubstituteBaseVars_tokens_witness :
    (preSubstituteBaseVars
        "{{_base_.alpha}} {{_base_.beta.c}} {{_base_.alpha}}"
        ["alpha", "beta.c"] (fun _ => "000000")).2
        = ["alpha", "beta.c"].map
            (fun p => (token (fun _ => "000000") p, p)) ∧
    (∀ p1 p2, p1 ≠ p2 →
      token (fun _ => "000000") p1 ≠ token (fun _ => "000000") p2) ∧
    ((preSubstituteBaseVars
        "{{_base_.alpha}} {{_base_.beta.c}} {{_base_.alpha}}"
        ["alpha", "beta.c"] (fun _ => "000000")).2.map Prod.fst).Nodup ∧
    (preSubstituteBaseVars
        "{{_base_.alpha}} {{_base_.beta.c}} {{_base_.alpha}}"
        ["alpha", "beta.c"] (fun _ => "000000")).1
        = ["alpha", "beta.c"].foldl
            (fun t p =>
              reSubBaseVar p ("\"" ++ token (fun _ => "000000") p ++ "\"") t)
            "{{_base_.alpha}} {{_base_.beta.c}} {{_base_.alpha}}" :=
  preSubstituteBaseVars_tokens
    "{{_base_.alpha}} {{_base_.beta.c}} {{_base_.alpha}}"
    ["alpha", "beta.c"] (fun _ => "000000")
    (fun _ => rfl) (by decide)
    (by
      intro p
      rw [show findBaseVars
          "{{_base_.alpha}} {{_base_.beta.c}} {{_base_.alpha}}"
          = ["alpha", "beta.c", "alpha"] from rfl]
      simp
      tauto)


end ConfigSpec
